import Mathlib

/-!
Verification of the EnvellServer session/transport/protocol layer.

Shallow embedding conventions:
* bytes are `Nat` values (0..255 where it matters);
* Rust `String`s are UTF-8 byte lists (`List Nat`) — `String::from_utf8_lossy`
  is modelled as the identity on the payload bytes (every payload examined by a
  theorem below is valid single-byte-prefix UTF-8, where the conversion is the
  identity);
* socket handles and socket addresses are opaque `Nat` identifiers;
* fallible code (Rust code that can panic) is modelled with `Except Unit`,
  `Except.error ()` standing for a panic;
* `HashMap` fields are association lists looked up with `List.lookup`.
-/

namespace Envell

/-- UTF-8 bytes of the string literal "WebClient" (Server.rs line 224,
Config.rs line 152). -/
def webClientName : List Nat := [87, 101, 98, 67, 108, 105, 101, 110, 116]

/-- UTF-8 bytes of the string literal "Центр мира" (Server.rs line 447). -/
def centrMira : List Nat :=
  [208, 166, 208, 181, 208, 189, 209, 130, 209, 128, 32,
   208, 188, 208, 184, 209, 128, 208, 176]

/-- UTF-8 bytes of "getposition". -/
def getpositionStr : List Nat :=
  [103, 101, 116, 112, 111, 115, 105, 116, 105, 111, 110]

/-- UTF-8 bytes of "setposition". -/
def setpositionStr : List Nat :=
  [115, 101, 116, 112, 111, 115, 105, 116, 105, 111, 110]

/-- UTF-8 bytes of "gettime". -/
def gettimeStr : List Nat := [103, 101, 116, 116, 105, 109, 101]

/-- UTF-8 bytes of "unknown". -/
def unknownStr : List Nat := [117, 110, 107, 110, 111, 119, 110]

/-- UTF-8 bytes of the format prefix "[Игрок " (Server.rs lines 467, 479, 488). -/
def igrokOpen : List Nat :=
  [91, 208, 152, 208, 179, 209, 128, 208, 190, 208, 186, 32]

/-- UTF-8 bytes of " запросил координаты " (Server.rs line 467). -/
def zaprosilKoord : List Nat :=
  [32, 208, 183, 208, 176, 208, 191, 209, 128, 208, 190, 209, 129, 208, 184,
   208, 187, 32, 208, 186, 208, 190, 208, 190, 209, 128, 208, 180, 208, 184,
   208, 189, 208, 176, 209, 130, 209, 139, 32]

/-- UTF-8 bytes of "Не найден" (Server.rs line 459). -/
def neNaiden : List Nat :=
  [208, 157, 208, 181, 32, 208, 189, 208, 176, 208, 185, 208, 180, 208, 181,
   208, 189]

/-- UTF-8 bytes of " не был перемещён: НЕ НАЙДЕН]" (Server.rs line 479). -/
def notMovedSuffix : List Nat :=
  [32, 208, 189, 208, 181, 32, 208, 177, 209, 139, 208, 187, 32, 208, 191,
   208, 181, 209, 128, 208, 181, 208, 188, 208, 181, 209, 137, 209, 145,
   208, 189, 58, 32, 208, 157, 208, 149, 32, 208, 157, 208, 144, 208, 153,
   208, 148, 208, 149, 208, 157, 93]

/-- UTF-8 bytes of " перемещён в (" (Server.rs line 488). -/
def movedMid : List Nat :=
  [32, 208, 191, 208, 181, 209, 128, 208, 181, 208, 188, 208, 181, 209, 137,
   209, 145, 208, 189, 32, 208, 178, 32, 40]

/-- UTF-8 bytes of "Текущее время сервера: " (Server.rs line 495). -/
def timePrefix : List Nat :=
  [208, 162, 208, 181, 208, 186, 209, 131, 209, 137, 208, 181, 208, 181, 32,
   208, 178, 209, 128, 208, 181, 208, 188, 209, 143, 32, 209, 129, 208, 181,
   209, 128, 208, 178, 208, 181, 209, 128, 208, 176, 58, 32]

/-- Byte-wise ASCII lowercasing, embedding `str::to_lowercase` as used on the
command text and on player names (every name and command compared by a theorem
below is ASCII, where Rust lowercasing acts exactly byte-wise). -/
def asciiLower (s : List Nat) : List Nat :=
  s.map (fun b => if 65 ≤ b ∧ b ≤ 90 then b + 32 else b)

/-- Little-endian bytes of a `u16` value, embedding `u16::to_le_bytes`. -/
def u16le (x : Nat) : List Nat := [x % 256, x / 256 % 256]

/-- Embedding of `<u16 as FromStr>::from_str` (`"...".parse::<u16>()`):
an optional leading plus sign, then one or more ASCII digits, value at most
65535; anything else is a parse error (`none`). -/
def parseU16 (s : List Nat) : Option Nat :=
  let digits := if s.headD 0 = 43 then s.tail else s
  if digits = [] then none
  else if digits.all (fun b => decide (48 ≤ b ∧ b ≤ 57)) then
    let v := digits.foldl (fun acc b => acc * 10 + (b - 48)) 0
    if v ≤ 65535 then some v else none
  else none

/-- Decimal ASCII digits of a natural number, embedding `u16::to_string`. -/
def natToDec (n : Nat) : List Nat := (Nat.toDigits 10 n).map Char.toNat

/-- Permission levels, from Config.rs. -/
inductive Permission where
  | Developer
  | Admin
  | Player
deriving DecidableEq, Repr, BEq

/-- Embedding of `Permission::check` (Config.rs lines 30-38): does the held
level `self` satisfy the required level `lvl`. -/
def Permission.check (self : Permission) (lvl : Permission) : Bool :=
  match lvl with
  | .Player => true
  | .Admin => self == Permission.Admin || self == Permission.Developer
  | .Developer => self == Permission.Developer

/-- Specification-side numeric rank of a permission level realizing the total
order Player < Admin < Developer from the spec. -/
def Permission.rank : Permission → Nat
  | .Player => 0
  | .Admin => 1
  | .Developer => 2

/-- Embedding of `Config::getPermission` (Config.rs lines 150-154): the name
"WebClient" is pinned to Developer; other names resolve through the permission
table, defaulting to Player. -/
def getPermission (perms : List (List Nat × Permission)) (name : List Nat) :
    Permission :=
  if name = webClientName then Permission.Developer
  else (perms.lookup name).getD Permission.Player

/-- Inbound control-channel messages (`ServerMessage`, Transmission.rs lines
4-18). The `SocketAddr` carried by web-originated variants is an opaque `Nat`
sink identifier. -/
inductive ServerMessage where
  | Invalid (web : Nat)
  | Register (name : List Nat)
  | Chat (text : List Nat) (web : Nat)
  | Disconnected
  | PlayersList (web : Nat)
  | SaveGame (checkpoint : List Nat)
  | ChatHistory (start : Nat) (web : Nat)
  | GameState (web : Nat)
  | ChatLength (web : Nat)
  | GetSettings (web : Nat)
  | SaveSettings (web : Nat)
deriving DecidableEq, Repr

/-- Embedding of `ServerMessage::fromRaw` (Transmission.rs lines 22-35).
`data[0]` on an empty slice panics in Rust, so the empty list maps to `none`;
for nonempty input the opcode is byte 0 and the payload is the remainder
(`args.remove(0)`), with the dummy sink address "0.0.0.0:0" modelled as `0`. -/
def ServerMessage.fromRaw : List Nat → Option ServerMessage
  | [] => none
  | code :: args =>
    some (if code = 1 then ServerMessage.Register args
      else if code = 2 then ServerMessage.Chat args 0
      else if code = 3 then ServerMessage.SaveGame args
      else ServerMessage.Invalid 0)

/-- Outbound control-channel messages (`ClientMessage`, Transmission.rs lines
39-47). -/
inductive ClientMessage where
  | Login (id : Nat) (name : List Nat) (cls : List Nat)
  | Disconnected (id : Nat)
  | Chat (text : List Nat)
  | SetPosition (x : Nat) (y : Nat)
  | GetInfo (udp : Nat) (tickRate : Nat) (checkpoint : List Nat)
      (playersCount : Nat)
deriving DecidableEq, Repr

/-- Embedding of `ClientMessage::toRaw` (Transmission.rs lines 51-71). -/
def ClientMessage.toRaw : ClientMessage → List Nat
  | .Login id name cls => 1 :: id :: (name ++ 0 :: cls)
  | .Disconnected id => [2, id]
  | .Chat text => 3 :: text
  | .SetPosition x y => 4 :: (u16le x ++ u16le y)
  | .GetInfo udp tickRate checkpoint playersCount =>
      5 :: (u16le udp ++ [tickRate, playersCount] ++ checkpoint)

/-- One session slot (`Client`, Client.rs lines 5-12). `tcp` holds an opaque
stream handle when connected; `udp` holds the learned state-channel return
address; `cls` is the source field `class` (a Lean keyword). -/
structure Client where
  id : Nat
  tcp : Option Nat
  name : List Nat
  cls : List Nat
  udp : Option Nat
deriving DecidableEq, Repr

/-- Embedding of `Client::default` (Client.rs lines 16-26). -/
def Client.default : Client :=
  { id := 0, tcp := none, name := [], cls := [], udp := none }

/-- Embedding of `Client::connect` (Client.rs lines 27-44): the freshly built
client (id, live stream, stored name and class, no learned address). The
constructor also writes one `Login(id, name, class)` message to the new
stream; that write leaves every field untouched. -/
def Client.connect (tcp : Nat) (id : Nat) (name : List Nat) (cls : List Nat) :
    Client :=
  { id := id, tcp := some tcp, name := name, cls := cls, udp := none }

/-- Outcome of one nonblocking `TcpStream::read`, as observed by
`Client::receiveTCP`: `ok data` is a successful read of `data.length` bytes,
`wouldBlock` is `ErrorKind::WouldBlock`, `fatal` is any other I/O error. -/
inductive ReadResult where
  | ok (data : List Nat)
  | wouldBlock
  | fatal
deriving DecidableEq, Repr

/-- Embedding of `Client::receiveTCP` (Client.rs lines 52-77). A zero-length
read and a fatal error both yield `Disconnected`; would-block yields nothing;
a nonempty read is decoded with `ServerMessage::fromRaw`. `Except.error ()`
would mark a decode of an empty buffer (a Rust panic); the theorems show it is
unreachable. The fatal branch also drops the stream handle (an effect on the
slot, not on the returned message). -/
def Client.receiveTCP (c : Client) (r : ReadResult) :
    Except Unit (Option ServerMessage) :=
  match c.tcp with
  | none => Except.ok none
  | some _ =>
    match r with
    | .ok [] => Except.ok (some ServerMessage.Disconnected)
    | .ok data =>
      match ServerMessage.fromRaw data with
      | some m => Except.ok (some m)
      | none => Except.error ()
    | .wouldBlock => Except.ok none
    | .fatal => Except.ok (some ServerMessage.Disconnected)

/-- Root server state (the fields of `Server`, Server.rs lines 10-24, that the
session/protocol layer mutates). `clients` and `playersState` both have
`maxPlayersCount` entries (Server.rs lines 54-58), so the capacity is
`clients.length`. The sockets, timers and web-client handle are pure I/O and
carry no session state. -/
structure ServerState where
  clients : List Client
  playersState : List (List Nat)
  chatHistory : List (List Nat × List Nat)
  broadcast : List ClientMessage
  permissions : List (List Nat × Permission)
deriving DecidableEq, Repr

/-- Embedding of `Server::getAvailablePlayerID` (Server.rs lines 413-420):
scan the table in ascending index order, return the first index with `id == 0`
plus one, or the sentinel 0 when every slot is taken. -/
def getAvailablePlayerID : List Client → Nat
  | [] => 0
  | c :: rest =>
    if c.id = 0 then 1
    else
      match getAvailablePlayerID rest with
      | 0 => 0
      | n + 1 => n + 2

/-- Embedding of `Server::getPlayerID` (Server.rs lines 422-432): first index
whose stored name equals the query case-insensitively, plus one; 0 if none. -/
def getPlayerID : List Client → List Nat → Nat
  | [], _ => 0
  | c :: rest, n =>
    if asciiLower c.name = asciiLower n then 1
    else
      match getPlayerID rest n with
      | 0 => 0
      | k + 1 => k + 2

/-- Embedding of the accept path of `Server::listen` (Server.rs lines 90-107):
on an accepted connection, allocate an id; if it is 0 the connection is
dropped and the table is untouched, otherwise the slot at index id-1 is
replaced by a freshly connected client carrying the name and class loaded from
the persisted player directory for the peer address. -/
def listenStep (clients : List Client) (tcp : Nat) (name : List Nat)
    (cls : List Nat) : List Client :=
  if getAvailablePlayerID clients = 0 then clients
  else
    clients.set (getAvailablePlayerID clients - 1)
      (Client.connect tcp (getAvailablePlayerID clients) name cls)

/-- Embedding of the `ServerMessage::Disconnected` arm of
`Server::handleRequests` (Server.rs lines 205-214): for a nonzero origin id,
the slot at index id-1 is reset to the default client, byte 0 of that slot's
state record is set to the id, and a `Disconnected(id)` broadcast is queued.
Origin ids are ids of live table entries, so the index is always in bounds. -/
def disconnectStep (st : ServerState) (id : Nat) : ServerState :=
  if id = 0 then st
  else
    { st with
      clients := st.clients.set (id - 1) Client.default,
      playersState := st.playersState.set (id - 1)
        ((st.playersState.getD (id - 1) []).set 0 id),
      broadcast := st.broadcast ++ [ClientMessage.Disconnected id] }

/-- Embedding of the `ServerMessage::Register` arm of `Server::handleRequests`
(Server.rs lines 189-204): store the new name in the origin slot, echo a
`Login(id, name, "unknown")` on that slot's stream, and persist the name and
class keyed by the stream's peer address. Indexing `clients[id - 1]` with
id = 0 underflows the `u8` and panics, as does an out-of-range id; the
persistence call unwraps the slot's stream handle and panics when the slot has
none. The returned list logs the (slot index, message) writes performed. -/
def registerStep (clients : List Client) (id : Nat) (name : List Nat) :
    Except Unit (List Client × List (Nat × ClientMessage)) :=
  if id = 0 ∨ clients.length < id then Except.error ()
  else if (clients.getD (id - 1) Client.default).tcp = none then
    Except.error ()
  else
    Except.ok
      (clients.set (id - 1)
        { clients.getD (id - 1) Client.default with name := name },
      [(id - 1, ClientMessage.Login id name unknownStr)])

/-- Embedding of the state-channel drain body of `Server::update` (Server.rs
lines 137-159) for one received datagram `data` from source address `addr`:
a datagram whose size is not 9 is skipped with no effect; otherwise the slot
id is the low 3 bits of byte 0 and the record is stored at index id-1, the
source address being learned first if that slot has none. When the masked id
is 0, `(id - 1) as usize` underflows the `u8` and the resulting index (255 in
a release build) is out of bounds for the table, a panic either way; an id
beyond the table length likewise panics. -/
def updateUDP (clients : List Client) (playersState : List (List Nat))
    (data : List Nat) (addr : Nat) :
    Except Unit (List Client × List (List Nat)) :=
  if data.length ≠ 9 then Except.ok (clients, playersState)
  else if data.headD 0 % 8 = 0 then Except.error ()
  else if clients.length < data.headD 0 % 8 then Except.error ()
  else
    Except.ok
      ((if (clients.getD (data.headD 0 % 8 - 1) Client.default).udp = none
        then clients.set (data.headD 0 % 8 - 1)
          { clients.getD (data.headD 0 % 8 - 1) Client.default with
            udp := some addr }
        else clients),
      playersState.set (data.headD 0 % 8 - 1) data)

/-- Embedding of the caller-name resolution in `Server::cmd` (Server.rs lines
446-448): origin 0 is named "Центр мира", any other origin uses its slot's
stored name. Call sites pass only live origin ids, so the index is in
bounds. -/
def cmdCallerName (clients : List Client) (executor : Nat) : List Nat :=
  if executor = 0 then centrMira
  else (clients.getD (executor - 1) Client.default).name

/-- The `getposition` branch of `Server::cmd` (Server.rs lines 454-471):
report the target's position decoded from bytes 1..4 of its state record as
two little-endian `u16` values, or "Не найден" when the name resolves to no
slot; the report is queued as a chat broadcast and appended to the chat
history. -/
def getpositionRun (st : ServerState) (args : List (List Nat))
    (name : List Nat) : Except Unit (ServerState × List (Nat × ClientMessage)) :=
  Except.ok
    ({ st with
      broadcast := st.broadcast ++
        [ClientMessage.Chat (igrokOpen ++ name ++ zaprosilKoord ++
          args.getD 1 name ++ [93, 32] ++
          (if getPlayerID st.clients (args.getD 1 name) = 0 then neNaiden
           else
            natToDec ((st.playersState.getD
                (getPlayerID st.clients (args.getD 1 name) - 1) []).getD 1 0 +
              256 * (st.playersState.getD
                (getPlayerID st.clients (args.getD 1 name) - 1) []).getD 2 0)
            ++ [32] ++
            natToDec ((st.playersState.getD
                (getPlayerID st.clients (args.getD 1 name) - 1) []).getD 3 0 +
              256 * (st.playersState.getD
                (getPlayerID st.clients (args.getD 1 name) - 1) []).getD 4 0)))],
      chatHistory := st.chatHistory ++
        [(name, igrokOpen ++ name ++ zaprosilKoord ++
          args.getD 1 name ++ [93, 32] ++
          (if getPlayerID st.clients (args.getD 1 name) = 0 then neNaiden
           else
            natToDec ((st.playersState.getD
                (getPlayerID st.clients (args.getD 1 name) - 1) []).getD 1 0 +
              256 * (st.playersState.getD
                (getPlayerID st.clients (args.getD 1 name) - 1) []).getD 2 0)
            ++ [32] ++
            natToDec ((st.playersState.getD
                (getPlayerID st.clients (args.getD 1 name) - 1) []).getD 3 0 +
              256 * (st.playersState.getD
                (getPlayerID st.clients (args.getD 1 name) - 1) []).getD 4 0)))] },
    [])

/-- The `setposition` branch of `Server::cmd` (Server.rs lines 472-491): when
the target name resolves to no slot, append a "не был перемещён" chat-history
entry and stop; otherwise parse the x and y tokens as `u16` — the source
unwraps the parse results, so a failing token is a panic (`Except.error`) —
append a confirmation entry and send that one slot a `SetPosition(x, y)`. -/
def setpositionRun (st : ServerState) (args : List (List Nat))
    (name : List Nat) : Except Unit (ServerState × List (Nat × ClientMessage)) :=
  if getPlayerID st.clients (args.getD 1 name) = 0 then
    Except.ok
      ({ st with chatHistory := st.chatHistory ++
          [(name, igrokOpen ++ args.getD 1 name ++ notMovedSuffix)] }, [])
  else
    match parseU16 (args.getD 2 [48]), parseU16 (args.getD 3 [48]) with
    | some x, some y =>
      Except.ok
        ({ st with chatHistory := st.chatHistory ++
            [(name, igrokOpen ++ args.getD 1 name ++ movedMid ++
              natToDec x ++ [59] ++ natToDec y ++ [41, 93])] },
        [(getPlayerID st.clients (args.getD 1 name) - 1,
          ClientMessage.SetPosition x y)])
    | some _, none => Except.error ()
    | none, _ => Except.error ()

/-- Command selection of `Server::cmd` (Server.rs lines 452-498) over the
already-split argument list: the first token selects the command, `getposition`
and `setposition` additionally require the caller's level to satisfy `Admin`,
`gettime` runs for everyone and appends a chat-history entry with the formatted
server time (`now`); any other first token does nothing. -/
def cmdDispatch (st : ServerState) (args : List (List Nat)) (name : List Nat)
    (p : Permission) (now : List Nat) :
    Except Unit (ServerState × List (Nat × ClientMessage)) :=
  if args.getD 0 [32] = getpositionStr ∧ p.check Permission.Admin = true then
    getpositionRun st args name
  else if args.getD 0 [32] = setpositionStr ∧ p.check Permission.Admin = true then
    setpositionRun st args name
  else if args.getD 0 [32] = gettimeStr then
    Except.ok
      ({ st with chatHistory := st.chatHistory ++ [(name, timePrefix ++ now)] },
      [])
  else Except.ok (st, [])

/-- Embedding of `Server::cmd` (Server.rs lines 434-498): lowercase the text,
split it on single spaces, resolve the caller name and its permission level,
and dispatch on the first token. An origin-0 caller additionally gets the
echoed command text written back to its web sink `web` (pure I/O, no state).
`now` stands for `State::getDateTime()` (wall-clock I/O). -/
def cmd (st : ServerState) (executor : Nat) (web : Nat) (txt : List Nat)
    (now : List Nat) : Except Unit (ServerState × List (Nat × ClientMessage)) :=
  cmdDispatch st ((asciiLower txt).splitOn 32)
    (cmdCallerName st.clients executor)
    (getPermission st.permissions (cmdCallerName st.clients executor)) now

/-- Embedding of the `ServerMessage::Chat` arm of `Server::handleRequests`
(Server.rs lines 215-236): `text.remove(0)` panics on an empty string
(`Except.error`); a leading slash forwards the remainder to `Server::cmd`;
otherwise the message is broadcast as "name: text" and appended to the chat
history under the display name ("WebClient" for origin 0), with origin 0 also
receiving a direct web reply (pure I/O). -/
def handleChat (st : ServerState) (id : Nat) (web : Nat) (msg : List Nat)
    (now : List Nat) : Except Unit (ServerState × List (Nat × ClientMessage)) :=
  match msg with
  | [] => Except.error ()
  | c :: rest =>
    if c = 47 then cmd st id web rest now
    else
      Except.ok
        ({ st with
          broadcast := st.broadcast ++
            [ClientMessage.Chat
              ((if id = 0 then webClientName
                else (st.clients.getD (id - 1) Client.default).name) ++
                [58, 32] ++ msg)],
          chatHistory := st.chatHistory ++
            [((if id = 0 then webClientName
               else (st.clients.getD (id - 1) Client.default).name), msg)] },
        [])

/-- Embedding of the `ServerMessage::ChatHistory` arm of
`Server::handleRequests` (Server.rs lines 264-283): a start index beyond the
history length is reset to 0; then for each i in [start, length) the entry at
index `length - 1 - i` (when more than one entry is being returned) or `i`
(otherwise) is emitted, in loop order. -/
def chatHistoryReply (history : List (List Nat × List Nat)) (start0 : Nat) :
    List (List Nat × List Nat) :=
  (List.range' (if history.length < start0 then 0 else start0)
      (history.length - (if history.length < start0 then 0 else start0))).map
    (fun i =>
      history.getD
        (if 1 < history.length - (if history.length < start0 then 0 else start0)
         then history.length - 1 - i else i)
        ([], []))

/-- Reply shape stated by the spec for `ChatHistory(startIndex)`: exactly the
entries from `startIndex` onward, newest-first whenever more than one entry is
returned (for at most one entry the reversal is the identity, so the reversed
suffix states both cases at once). This definition follows the spec's words,
for comparison with `chatHistoryReply` above, which follows the source. -/
def specChatHistoryReply (history : List (List Nat × List Nat)) (start : Nat) :
    List (List Nat × List Nat) :=
  (history.drop start).reverse

/-- Records aggregated for receiver index `i` by `Server::broadcastState`
(Server.rs lines 395-400): every state record whose byte 0 is nonzero, other
than receiver `i`'s own, in ascending slot order. -/
def stateRecordsFor (playersState : List (List Nat)) (capacity : Nat)
    (i : Nat) : List (List Nat) :=
  (List.range capacity).filterMap (fun j =>
    if (playersState.getD j []).headD 0 = 0 ∨ j = i then none
    else some (playersState.getD j []))

/-- Embedding of `Server::broadcastState` (Server.rs lines 386-405): for each
receiver index below both the capacity and the table length (the loop breaks
at the table length) whose slot has a learned return address, concatenate the
records selected by `stateRecordsFor` and send them as one datagram unless the
payload is empty. The result lists the (receiver index, payload) datagrams
sent. -/
def broadcastState (clients : List Client) (playersState : List (List Nat))
    (capacity : Nat) : List (Nat × List Nat) :=
  (List.range (min capacity clients.length)).filterMap (fun i =>
    match (clients.getD i Client.default).udp with
    | none => none
    | some _ =>
      if (stateRecordsFor playersState capacity i).flatten = [] then none
      else some (i, (stateRecordsFor playersState capacity i).flatten))

/-- Empty-slot shape: the default client, field by field. -/
def emptySlot (c : Client) : Prop :=
  c.id = 0 ∧ c.tcp = none ∧ c.udp = none ∧ c.name = [] ∧ c.cls = []

instance (c : Client) : Decidable (emptySlot c) := by
  unfold emptySlot; infer_instance

/-- Session-table shape invariant: each index holds either an empty slot or a
client whose id is exactly the index plus one. -/
def slotInv (clients : List Client) : Prop :=
  ∀ i, i < clients.length →
    emptySlot (clients.getD i Client.default) ∨
    (clients.getD i Client.default).id = i + 1

instance (clients : List Client) : Decidable (slotInv clients) := by
  unfold slotInv; infer_instance

/-! Concrete inputs used by the theorems below. -/

/-- UTF-8 bytes of "Ari". -/
def ariStr : List Nat := [65, 114, 105]

/-- UTF-8 bytes of "Mage". -/
def mageStr : List Nat := [77, 97, 103, 101]

/-- UTF-8 bytes of "bob". -/
def bobStr : List Nat := [98, 111, 98]

/-- UTF-8 bytes of "foo". -/
def fooStr : List Nat := [102, 111, 111]

/-- A table with two connected players, "bob" in slot 1 and "foo" in slot 2,
with an empty permission table (both resolve to Player). -/
def twoPlayerState : ServerState :=
  { clients :=
      [{ id := 1, tcp := some 0, name := bobStr, cls := [], udp := none },
       { id := 2, tcp := some 1, name := fooStr, cls := [], udp := none }],
    playersState := [[0, 0, 0, 0, 0, 0, 0, 0, 0], [0, 0, 0, 0, 0, 0, 0, 0, 0]],
    chatHistory := [], broadcast := [], permissions := [] }

/-- The same two-player table with "bob" granted Admin. -/
def adminBobState : ServerState :=
  { twoPlayerState with permissions := [(bobStr, Permission.Admin)] }

/-- The chat command text "setposition foo abc 20" (after the slash), whose x
token does not parse as a u16. -/
def badSetposTxt : List Nat :=
  setpositionStr ++ [32] ++ fooStr ++ [32] ++ [97, 98, 99] ++ [32] ++ [50, 48]

/-- The chat command text "setposition foo 10 20" (after the slash). -/
def setposTxt : List Nat :=
  setpositionStr ++ [32] ++ fooStr ++ [32] ++ [49, 48] ++ [32] ++ [50, 48]

/-- A chat history with three entries, oldest first: ("a","a"), ("b","b"),
("c","c"). -/
def threeEntryHistory : List (List Nat × List Nat) :=
  [([97], [97]), ([98], [98]), ([99], [99])]

/-- A table with two address-known players whose state records are live:
slot 1 at record [1,5,0,6,0,...] (position x=5, y=6), slot 2 at
[2,7,0,8,0,...] (position x=7, y=8). -/
def liveTwoState : ServerState :=
  { clients :=
      [{ id := 1, tcp := some 10, name := bobStr, cls := [], udp := some 77 },
       { id := 2, tcp := some 11, name := fooStr, cls := [], udp := some 88 }],
    playersState := [[1, 5, 0, 6, 0, 0, 0, 0, 0], [2, 7, 0, 8, 0, 0, 0, 0, 0]],
    chatHistory := [], broadcast := [], permissions := [] }

/-- A fully occupied one-slot table. -/
def fullOneState : List Client :=
  [{ id := 1, tcp := some 0, name := [], cls := [], udp := none }]

/-! Claim theorems. -/

/-- C1: the claim states that no byte sequence a connected client delivers over
the control channel can panic the server, and that a wrong argument type in a
command yields at most a reply or log entry. The code refutes both parts: the
one-byte message [2] decodes to `Chat("")`, whose dispatch removes the first
character of an empty string and panics (Server.rs line 219), and the Admin
command "/setposition foo abc 20" unwraps a failed u16 parse and panics
(Server.rs line 483). This theorem evaluates the embedded code at both failing
inputs. -/
theorem C1_client_input_can_panic :
    ServerMessage.fromRaw [2] = some (ServerMessage.Chat [] 0) ∧
    handleChat twoPlayerState 1 0 [] [] = Except.error () ∧
    cmd adminBobState 1 0 badSetposTxt [] = Except.error () :=
  ⟨rfl, rfl, rfl⟩

/-- C2: the claim states that a state-channel datagram of length ≠ 9 or with
masked slot id 0 is discarded with no side effect and no crash. The length
half holds (second conjunct), but a 9-byte datagram whose first byte has zero
low 3 bits is not discarded: the code computes `clients[(id - 1) as usize]`,
and with id = 0 the u8 subtraction wraps so the index is out of bounds — a
panic, evaluated here at the datagram [8,1,2,3,4,5,6,7,8]. -/
theorem C2_zero_slot_id_datagram_panics :
    updateUDP [Client.default] [[0, 0, 0, 0, 0, 0, 0, 0, 0]]
      [8, 1, 2, 3, 4, 5, 6, 7, 8] 7 = Except.error () ∧
    updateUDP [Client.default] [[0, 0, 0, 0, 0, 0, 0, 0, 0]] [1, 2, 3] 7 =
      Except.ok ([Client.default], [[0, 0, 0, 0, 0, 0, 0, 0, 0]]) :=
  ⟨rfl, rfl⟩

/-- C3: decoding the control-channel encoding of `Login(3, "Ari", "Mage")`
yields a `Register` message whose single payload string carries fields
equivalent to id = 3, name = "Ari", class = "Mage": byte 0 of the payload is
the id 3, the bytes before the 0x00 separator are "Ari", and the bytes after
it are "Mage". -/
theorem C3_login_decode_roundtrip :
    ServerMessage.fromRaw
        (ClientMessage.toRaw (ClientMessage.Login 3 ariStr mageStr)) =
      some (ServerMessage.Register (3 :: (ariStr ++ 0 :: mageStr))) ∧
    (3 :: (ariStr ++ 0 :: mageStr)).headD 0 = 3 ∧
    (3 :: (ariStr ++ 0 :: mageStr)).tail.takeWhile (fun b => b != 0) = ariStr ∧
    ((3 :: (ariStr ++ 0 :: mageStr)).tail.dropWhile (fun b => b != 0)).tail =
      mageStr := by
  refine ⟨rfl, rfl, ?_, ?_⟩ <;> decide

/-- C6: control-channel decoding is total on byte sequences of length ≥ 1
(first conjunct), degrades to `Invalid` on every unrecognized opcode (second
conjunct), and `Client::receiveTCP` never passes a length-0 buffer to the
decoder — a zero-length read becomes `Disconnected` — so receiving never
panics (third conjunct). -/
theorem C6_decode_total :
    (∀ data : List Nat, data ≠ [] → ∃ m, ServerMessage.fromRaw data = some m) ∧
    (∀ code args, code ≠ 1 → code ≠ 2 → code ≠ 3 →
      ServerMessage.fromRaw (code :: args) = some (ServerMessage.Invalid 0)) ∧
    (∀ c r, Client.receiveTCP c r ≠ Except.error ()) := by
  refine ⟨?_, ?_, ?_⟩
  · intro data h
    match data with
    | [] => exact absurd rfl h
    | code :: args => exact ⟨_, rfl⟩
  · intro code args h1 h2 h3
    simp [ServerMessage.fromRaw, h1, h2, h3]
  · intro c r
    obtain ⟨id, tcp, name, cls, udp⟩ := c
    cases tcp with
    | none => simp [Client.receiveTCP]
    | some t =>
      cases r with
      | ok data =>
        cases data with
        | nil => simp [Client.receiveTCP]
        | cons b rest => simp [Client.receiveTCP, ServerMessage.fromRaw]
      | wouldBlock => simp [Client.receiveTCP]
      | fatal => simp [Client.receiveTCP]

/-- Witness for C6 at concrete inputs: the one-byte message [2] decodes to
something, and opcode 9 decodes to `Invalid`. -/
theorem C6_decode_total_witness :
    (∃ m, ServerMessage.fromRaw [2] = some m) ∧
    ServerMessage.fromRaw [9, 1] = some (ServerMessage.Invalid 0) :=
  ⟨C6_decode_total.1 [2] (by decide),
   C6_decode_total.2.1 9 [1] (by decide) (by decide) (by decide)⟩

/-- Allocation over a fully occupied table yields the sentinel 0. -/
theorem getAvailablePlayerID_full (clients : List Client)
    (h : ∀ c ∈ clients, c.id ≠ 0) : getAvailablePlayerID clients = 0 := by
  induction clients with
  | nil => rfl
  | cons c rest ih =>
    have hc : ¬ c.id = 0 := h c (List.mem_cons_self c rest)
    have hr := ih (fun x hx => h x (List.mem_cons_of_mem c hx))
    simp [getAvailablePlayerID, hc, hr]

/-- Allocation returns the first empty index plus one. -/
theorem getAvailablePlayerID_first (clients : List Client) (i : Nat)
    (hi : i < clients.length)
    (hz : (clients.getD i Client.default).id = 0)
    (hprev : ∀ j, j < i → (clients.getD j Client.default).id ≠ 0) :
    getAvailablePlayerID clients = i + 1 := by
  induction clients generalizing i with
  | nil => simp at hi
  | cons c rest ih =>
    cases i with
    | zero =>
      simp only [List.getD_cons_zero] at hz
      simp [getAvailablePlayerID, hz]
    | succ i =>
      have hc : ¬ c.id = 0 := by
        have h0 := hprev 0 (Nat.succ_pos i)
        simpa using h0
      have hr := ih i (by simpa using hi) (by simpa using hz)
        (fun j hj => by
          have hh := hprev (j + 1) (Nat.succ_lt_succ hj)
          simpa using hh)
      simp [getAvailablePlayerID, hc, hr]

/-- When allocation returns i + 1, index i is in bounds and empty. -/
theorem getAvailablePlayerID_inv (clients : List Client) (i : Nat)
    (h : getAvailablePlayerID clients = i + 1) :
    i < clients.length ∧ (clients.getD i Client.default).id = 0 := by
  induction clients generalizing i with
  | nil => simp [getAvailablePlayerID] at h
  | cons c rest ih =>
    by_cases hc : c.id = 0
    · have h1 : i = 0 := by
        simp [getAvailablePlayerID, hc] at h
        omega
      subst h1
      exact ⟨Nat.succ_pos _, by simpa using hc⟩
    · rw [show getAvailablePlayerID (c :: rest) =
          (match getAvailablePlayerID rest with
            | 0 => 0
            | n + 1 => n + 2) by simp [getAvailablePlayerID, hc]] at h
      cases hr : getAvailablePlayerID rest with
      | zero => rw [hr] at h; simp at h
      | succ n =>
        rw [hr] at h
        change n + 2 = i + 1 at h
        have h2 : i = n + 1 := by omega
        subst h2
        have hrec := ih n hr
        exact ⟨Nat.succ_lt_succ hrec.1, by simpa using hrec.2⟩

/-- C5: slot allocation scans in ascending index order and yields the smallest
1-based id of an empty slot (second conjunct); when every slot is taken it
returns the sentinel 0 and the accept step leaves the table exactly as it was
(first conjunct). -/
theorem C5_allocation_smallest_free (clients : List Client) :
    ((∀ c ∈ clients, c.id ≠ 0) →
      getAvailablePlayerID clients = 0 ∧
      ∀ tcp name cls, listenStep clients tcp name cls = clients) ∧
    ∀ i, i < clients.length → (clients.getD i Client.default).id = 0 →
      (∀ j, j < i → (clients.getD j Client.default).id ≠ 0) →
      getAvailablePlayerID clients = i + 1 := by
  constructor
  · intro h
    have h0 := getAvailablePlayerID_full clients h
    exact ⟨h0, fun tcp name cls => by simp [listenStep, h0]⟩
  · exact fun i hi hz hp => getAvailablePlayerID_first clients i hi hz hp

/-- Witness for C5 at concrete tables: a full one-slot table allocates 0 and
the accept step does not change it; a table with slot 1 taken and slot 2 free
allocates 2. -/
theorem C5_allocation_smallest_free_witness :
    (getAvailablePlayerID fullOneState = 0 ∧
      listenStep fullOneState 3 [97] [98] = fullOneState) ∧
    getAvailablePlayerID (fullOneState ++ [Client.default]) = 2 :=
  ⟨⟨((C5_allocation_smallest_free fullOneState).1 (by decide)).1,
    ((C5_allocation_smallest_free fullOneState).1 (by decide)).2 3 [97] [98]⟩,
   (C5_allocation_smallest_free (fullOneState ++ [Client.default])).2 1
     (by decide) (by decide) (by decide)⟩

/-- C7: `Permission::check(held, required)` is true exactly when the held
level is at least the required one under Player < Admin < Developer (first
conjunct); consequently, when the resolved permission of a command's caller is
Player, the command "setposition foo 10 20" does nothing: the state is
returned unchanged and no message is written to any session (second
conjunct). -/
theorem C7_check_iff_ge_and_player_setposition_ignored :
    (∀ held req : Permission,
      held.check req = true ↔ req.rank ≤ held.rank) ∧
    ∀ st executor web now,
      getPermission st.permissions (cmdCallerName st.clients executor) =
        Permission.Player →
      cmd st executor web setposTxt now = Except.ok (st, []) := by
  constructor
  · intro held req
    cases held <;> cases req <;> decide
  · intro st executor web now hp
    unfold cmd
    rw [hp]
    unfold cmdDispatch
    rw [if_neg (by decide), if_neg (by decide), if_neg (by decide)]

/-- Witness for C7 at a concrete table: in the two-player table with an empty
permission table, slot 1's caller resolves to Player, and its
"setposition foo 10 20" leaves the state unchanged and sends nothing. -/
theorem C7_witness :
    getPermission twoPlayerState.permissions
        (cmdCallerName twoPlayerState.clients 1) = Permission.Player ∧
    cmd twoPlayerState 1 0 setposTxt [] = Except.ok (twoPlayerState, []) :=
  ⟨by decide,
   C7_check_iff_ge_and_player_setposition_ignored.2 twoPlayerState 1 0 []
     (by decide)⟩

/-- C8 counterexample: the claim says a command dispatched with origin 0
resolves to the hard-pinned Developer level. In the code the pin in
`Config::getPermission` is on the name "WebClient", while `Server::cmd` names
origin 0 "Центр мира"; with an empty permission table origin 0 therefore
resolves to Player, not Developer, and its "setposition foo 10 20" — which a
Developer would execute — is permission-denied and does nothing. -/
theorem C8_counterexample_origin0_resolves_player :
    getPermission [] (cmdCallerName [] 0) = Permission.Player ∧
    Permission.Player ≠ Permission.Developer ∧
    cmd twoPlayerState 0 0 setposTxt [] = Except.ok (twoPlayerState, []) :=
  ⟨rfl, by decide, rfl⟩

/-- C8 amended: `getPermission` hard-pins the NAME "WebClient" to Developer
regardless of origin; every other name resolves through the name-to-level
table defaulting to Player; and a command dispatched with origin 0 resolves
the caller name "Центр мира", which is not the pinned name, so origin 0 gets
Developer only when the table itself maps "Центр мира" to it. -/
theorem C8_amended_pin_is_by_name :
    (∀ perms, getPermission perms webClientName = Permission.Developer) ∧
    (∀ perms name, name ≠ webClientName →
      getPermission perms name =
        (perms.lookup name).getD Permission.Player) ∧
    (∀ clients, cmdCallerName clients 0 = centrMira) ∧
    centrMira ≠ webClientName := by
  refine ⟨?_, ?_, fun clients => rfl, by decide⟩
  · intro perms; simp [getPermission]
  · intro perms name h; simp [getPermission, h]

/-- Witness for C8's amended claim: an unpinned name with an empty table
resolves through the table to Player. -/
theorem C8_amended_pin_is_by_name_witness :
    getPermission [] bobStr =
      (([] : List (List Nat × Permission)).lookup bobStr).getD
        Permission.Player :=
  C8_amended_pin_is_by_name.2.1 [] bobStr (by decide)

/-- C9 counterexample: the claim says a `ChatHistory(startIndex)` reply with
startIndex ≤ length holds exactly the entries from startIndex onward,
newest-first. On the three-entry history with startIndex 1 the code replies
with entries 1 and 0 — the newest-first index is computed as length-1-i, which
accounts for the start offset only when it is 0 — while the claimed reply is
entries 2 and 1. -/
theorem C9_counterexample_start1 :
    chatHistoryReply threeEntryHistory 1 = [([98], [98]), ([97], [97])] ∧
    specChatHistoryReply threeEntryHistory 1 = [([99], [99]), ([98], [98])] ∧
    chatHistoryReply threeEntryHistory 1 ≠
      specChatHistoryReply threeEntryHistory 1 :=
  ⟨rfl, rfl, by decide⟩

/-- C9 amended: for startIndex ≤ length, the reply has length − startIndex
entries; when more than one entry is returned they are the entries at indices
length−1−startIndex down to 0 — the oldest length−startIndex entries in
newest-first order, which coincides with "the entries from startIndex onward,
newest-first" exactly when startIndex = 0 — and when at most one entry is
returned it is the suffix from startIndex onward as stored. -/
theorem C9_amended_reply_shape (history : List (List Nat × List Nat))
    (start : Nat) (h : start ≤ history.length) :
    chatHistoryReply history start =
      if 1 < history.length - start then
        (history.take (history.length - start)).reverse
      else history.drop start := by
  have hs : ¬ (history.length < start) := Nat.not_lt.mpr h
  unfold chatHistoryReply
  simp only [if_neg hs]
  by_cases hc : 1 < history.length - start
  · simp only [if_pos hc]
    apply List.ext_getElem
    · simp only [List.length_map, List.length_range', List.length_reverse,
        List.length_take]
      omega
    · intro n h1 h2
      have hn : n < history.length - start := by
        simpa using h1
      have hidx : start + n < history.length := by omega
      have hidx2 : history.length - 1 - (start + n) < history.length := by
        omega
      simp only [List.getElem_map, List.getElem_range'_1, List.getElem_reverse,
        List.getElem_take]
      rw [List.getD_eq_getElem _ _ hidx2]
      congr 1
      simp
      omega
  · simp only [if_neg hc]
    apply List.ext_getElem
    · simp
    · intro n h1 h2
      have hn : n < history.length - start := by
        simpa using h1
      have hidx : start + n < history.length := by omega
      simp only [List.getElem_map, List.getElem_range'_1, List.getElem_drop]
      rw [List.getD_eq_getElem _ _ hidx]

/-- Witness for C9's amended claim at the three-entry history with
startIndex 1. -/
theorem C9_amended_reply_shape_witness :
    1 ≤ threeEntryHistory.length ∧
    chatHistoryReply threeEntryHistory 1 =
      if 1 < threeEntryHistory.length - 1 then
        (threeEntryHistory.take (threeEntryHistory.length - 1)).reverse
      else threeEntryHistory.drop 1 :=
  ⟨by decide, C9_amended_reply_shape threeEntryHistory 1 (by decide)⟩

/-- C4 counterexample: the claim says the packet built for slot i never
contains the record of a slot with no learned address, such as a slot already
released by a disconnect. Starting from the live two-player table and handling
slot 2's disconnect — which resets slot 2 to the default client (no address,
id 0) but sets byte 0 of its state record to 2 — the broadcast still sends
slot 1 (receiver index 0) a packet consisting of released slot 2's record. -/
theorem C4_counterexample_released_slot_included :
    broadcastState (disconnectStep liveTwoState 2).clients
        (disconnectStep liveTwoState 2).playersState 2 =
      [(0, [2, 7, 0, 8, 0, 0, 0, 0, 0])] ∧
    (disconnectStep liveTwoState 2).clients.getD 1 Client.default =
      Client.default ∧
    (disconnectStep liveTwoState 2).playersState.getD 1 [] =
      [2, 7, 0, 8, 0, 0, 0, 0, 0] :=
  ⟨rfl, rfl, rfl⟩

/-- C4 amended: every datagram of the broadcast phase goes to a receiver index
below capacity whose slot has a learned address, is nonempty, and is the
concatenation of the selected records; the selected records are exactly those
of slots j ≠ i below capacity whose record's first byte is nonzero —
regardless of whether slot j is still active or has a learned address (a slot
released by a disconnect keeps byte 0 of its record set to its id and stays
included). The receiver's own record is never included. -/
theorem C4_amended_packet_contents :
    ∀ clients ps cap i buf, (i, buf) ∈ broadcastState clients ps cap →
      i < cap ∧ (clients.getD i Client.default).udp ≠ none ∧
      buf = (stateRecordsFor ps cap i).flatten ∧ buf ≠ [] ∧
      (∀ r ∈ stateRecordsFor ps cap i, ∃ j, j < cap ∧ j ≠ i ∧
        r = ps.getD j [] ∧ (ps.getD j []).headD 0 ≠ 0) ∧
      (∀ j, j < cap → j ≠ i → (ps.getD j []).headD 0 ≠ 0 →
        ps.getD j [] ∈ stateRecordsFor ps cap i) := by
  intro clients ps cap i buf hmem
  rw [broadcastState, List.mem_filterMap] at hmem
  obtain ⟨a, ha, hfa⟩ := hmem
  rw [List.mem_range] at ha
  cases hu : (clients.getD a Client.default).udp with
  | none => rw [hu] at hfa; exact absurd hfa (by simp)
  | some addr =>
    rw [hu] at hfa
    by_cases hb : (stateRecordsFor ps cap a).flatten = []
    · rw [if_pos hb] at hfa
      exact absurd hfa (by simp)
    · rw [if_neg hb] at hfa
      injection hfa with hpair
      have hai : a = i := congrArg Prod.fst hpair
      have hbuf : (stateRecordsFor ps cap a).flatten = buf :=
        congrArg Prod.snd hpair
      subst hai
      refine ⟨lt_of_lt_of_le ha (Nat.min_le_left _ _),
        by rw [hu]; simp, hbuf.symm, hbuf ▸ hb, ?_, ?_⟩
      · intro r hr
        rw [stateRecordsFor, List.mem_filterMap] at hr
        obtain ⟨j, hj, hfj⟩ := hr
        rw [List.mem_range] at hj
        by_cases hcnd : (ps.getD j []).headD 0 = 0 ∨ j = a
        · rw [if_pos hcnd] at hfj
          exact absurd hfj (by simp)
        · rw [if_neg hcnd] at hfj
          push_neg at hcnd
          injection hfj with hr2
          exact ⟨j, hj, hcnd.2, hr2.symm, hcnd.1⟩
      · intro j hj hji hnz
        rw [stateRecordsFor, List.mem_filterMap]
        refine ⟨j, List.mem_range.mpr hj, ?_⟩
        rw [if_neg (by push_neg; exact ⟨hnz, hji⟩)]

/-- Witness for C4's amended claim at the post-disconnect table: the single
datagram (0, [2,7,0,8,0,0,0,0,0]) of that broadcast satisfies the
characterization. -/
theorem C4_amended_packet_contents_witness :
    0 < 2 ∧
    ((disconnectStep liveTwoState 2).clients.getD 0 Client.default).udp ≠
      none ∧
    [2, 7, 0, 8, 0, 0, 0, 0, 0] =
      (stateRecordsFor (disconnectStep liveTwoState 2).playersState 2
        0).flatten ∧
    [2, 7, 0, 8, 0, 0, 0, 0, 0] ≠ ([] : List Nat) ∧
    (∀ r ∈ stateRecordsFor (disconnectStep liveTwoState 2).playersState 2 0,
      ∃ j, j < 2 ∧ j ≠ 0 ∧
        r = (disconnectStep liveTwoState 2).playersState.getD j [] ∧
        ((disconnectStep liveTwoState 2).playersState.getD j []).headD 0 ≠ 0) ∧
    (∀ j, j < 2 → j ≠ 0 →
      ((disconnectStep liveTwoState 2).playersState.getD j []).headD 0 ≠ 0 →
      (disconnectStep liveTwoState 2).playersState.getD j [] ∈
        stateRecordsFor (disconnectStep liveTwoState 2).playersState 2 0) :=
  C4_amended_packet_contents (disconnectStep liveTwoState 2).clients
    (disconnectStep liveTwoState 2).playersState 2 0
    [2, 7, 0, 8, 0, 0, 0, 0, 0] (by decide)

/-- Replacing one entry by an empty slot or by a client carrying its own
index plus one preserves the table shape invariant. -/
theorem slotInv_set (clients : List Client) (i : Nat) (c : Client)
    (h : slotInv clients) (hc : emptySlot c ∨ c.id = i + 1) :
    slotInv (clients.set i c) := by
  intro j hj
  rw [List.length_set] at hj
  rw [List.getD_eq_getElem _ _ (by simpa [List.length_set] using hj)]
  rw [List.getElem_set]
  by_cases hij : i = j
  · rw [if_pos hij]
    subst hij
    exact hc
  · rw [if_neg hij]
    have hjj := h j hj
    rw [List.getD_eq_getElem _ _ hj] at hjj
    exact hjj

/-- C10: the session-table shape invariant — each index holds an empty slot or
a client whose id is the index plus one — is kept by the accept step, the
disconnect handler, the register handler, and command dispatch; moreover the
accept step installs at the allocated index a freshly connected client with id
index + 1, the disconnect handler restores the default client at the released
index, a successfully processed register keeps the slot's id, and command
dispatch never changes the table at all. -/
theorem C10_table_shape_invariant :
    (∀ clients tcp name cls,
      slotInv clients → slotInv (listenStep clients tcp name cls)) ∧
    (∀ clients tcp name cls i, getAvailablePlayerID clients = i + 1 →
      (listenStep clients tcp name cls).getD i Client.default =
        Client.connect tcp (i + 1) name cls) ∧
    (∀ st id, slotInv st.clients → slotInv (disconnectStep st id).clients) ∧
    (∀ st id, id ≠ 0 → id - 1 < st.clients.length →
      (disconnectStep st id).clients.getD (id - 1) Client.default =
        Client.default) ∧
    (∀ clients id name out, slotInv clients →
      registerStep clients id name = Except.ok out →
      slotInv out.1 ∧ (out.1.getD (id - 1) Client.default).id = id) ∧
    (∀ st executor web txt now out,
      cmd st executor web txt now = Except.ok out →
      out.1.clients = st.clients) := by
  refine ⟨?_, ?_, ?_, ?_, ?_, ?_⟩
  · intro clients tcp name cls h
    unfold listenStep
    by_cases h0 : getAvailablePlayerID clients = 0
    · rw [if_pos h0]; exact h
    · rw [if_neg h0]
      cases hA : getAvailablePlayerID clients with
      | zero => exact absurd hA h0
      | succ i =>
        rw [Nat.add_sub_cancel]
        exact slotInv_set clients i _ h (Or.inr rfl)
  · intro clients tcp name cls i hA
    have hlt := (getAvailablePlayerID_inv clients i hA).1
    unfold listenStep
    rw [hA, if_neg (Nat.succ_ne_zero i), Nat.add_sub_cancel]
    rw [List.getD_eq_getElem _ _ (by simpa [List.length_set] using hlt)]
    rw [List.getElem_set_self]
  · intro st id h
    unfold disconnectStep
    by_cases h0 : id = 0
    · rw [if_pos h0]; exact h
    · rw [if_neg h0]
      exact slotInv_set st.clients (id - 1) Client.default h
        (Or.inl (by decide))
  · intro st id h0 hlt
    unfold disconnectStep
    rw [if_neg h0]
    show (st.clients.set (id - 1) Client.default).getD (id - 1)
      Client.default = Client.default
    rw [List.getD_eq_getElem _ _ (by simpa [List.length_set] using hlt)]
    rw [List.getElem_set_self]
  · intro clients id name out h hok
    unfold registerStep at hok
    split at hok
    · exact Except.noConfusion hok
    next hrange =>
      split at hok
      · exact Except.noConfusion hok
      next htcp =>
        injection hok with hout
        push_neg at hrange
        obtain ⟨hid0, hlen⟩ := hrange
        have hlt : id - 1 < clients.length := by omega
        have hid : (clients.getD (id - 1) Client.default).id = id := by
          rcases h (id - 1) hlt with he | ha
          · exact absurd he.2.1 htcp
          · rw [ha]; omega
        subst hout
        constructor
        · apply slotInv_set clients (id - 1) _ h
          right
          show (clients.getD (id - 1) Client.default).id = (id - 1) + 1
          rw [hid]; omega
        · show ((clients.set (id - 1)
            { clients.getD (id - 1) Client.default with name := name }).getD
              (id - 1) Client.default).id = id
          rw [List.getD_eq_getElem _ _ (by simpa [List.length_set] using hlt)]
          rw [List.getElem_set_self]
          exact hid
  · intro st executor web txt now out hok
    unfold cmd cmdDispatch getpositionRun setpositionRun at hok
    repeat' split at hok
    all_goals
      first
      | exact Except.noConfusion hok
      | (injection hok with hout; subst hout; rfl)

/-- Witness for C10 at concrete inputs: accepting a connection into a
one-empty-slot table preserves the invariant; after the accept the slot holds
the freshly connected client; disconnecting slot 1 of the two-player table
preserves the invariant and restores the default client; registering succeeds
on slot 1 and keeps its id; and a dispatched gettime command leaves the table
untouched. -/
theorem C10_table_shape_invariant_witness :
    slotInv (listenStep [Client.default] 3 bobStr mageStr) ∧
    (listenStep [Client.default] 3 bobStr mageStr).getD 0 Client.default =
      Client.connect 3 1 bobStr mageStr ∧
    slotInv (disconnectStep twoPlayerState 1).clients ∧
    (disconnectStep twoPlayerState 1).clients.getD 0 Client.default =
      Client.default ∧
    (∀ out, registerStep twoPlayerState.clients 1 ariStr = Except.ok out →
      slotInv out.1 ∧ (out.1.getD 0 Client.default).id = 1) ∧
    (∀ out, cmd twoPlayerState 1 0 gettimeStr [] = Except.ok out →
      out.1.clients = twoPlayerState.clients) :=
  ⟨C10_table_shape_invariant.1 [Client.default] 3 bobStr mageStr (by decide),
   C10_table_shape_invariant.2.1 [Client.default] 3 bobStr mageStr 0 (by decide),
   C10_table_shape_invariant.2.2.1 twoPlayerState 1 (by decide),
   C10_table_shape_invariant.2.2.2.1 twoPlayerState 1 (by decide) (by decide),
   fun out hok =>
     C10_table_shape_invariant.2.2.2.2.1 twoPlayerState.clients 1 ariStr out
       (by decide) hok,
   fun out hok =>
     C10_table_shape_invariant.2.2.2.2.2 twoPlayerState 1 0 gettimeStr [] out
       hok⟩

end Envell
